/-
Verification of the kantos scheduler (os.c / os.h and the Cortex-M33 system
driver) against its natural-language specification.

The development shallowly embeds the scheduler: the five 32-bit task-state
vectors become natural numbers below 2^32, the task table becomes a function
from task numbers to task records, and each C function of os.c is transcribed
as a Lean function over an explicit scheduler state.  Machine arithmetic is
modelled with explicit reductions modulo 2^32 / 2^64 where the C code relies
on unsigned wraparound.
-/
import Mathlib

namespace Kantos

/-! ## Constants from os.h / os.c -/

/-- MAX_NUM_TASKS from os.h. -/
def MAX_NUM_TASKS : Nat := 32

/-- TASK_STACK_SIZE from os.h (0x400 bytes). -/
def TASK_STACK_SIZE : Nat := 0x400

/-- IDLE_STACK_SIZE from os.h (0x100 bytes). -/
def IDLE_STACK_SIZE : Nat := 0x100

/-- OS_NOSLEEP sentinel from os.c: 0xFFFFFFFFFFFFFFFF. -/
def OS_NOSLEEP : Nat := 0xFFFFFFFFFFFFFFFF

/-- SYSTEM_OK from system.h. -/
def SYSTEM_OK : Nat := 0

/-- SYSTEM_ERROR from system.h. -/
def SYSTEM_ERROR : Nat := 1

/-- 2^32, the modulus of uint32_t arithmetic. -/
def U32 : Nat := 0x100000000

/-- 2^64, the modulus of uint64_t arithmetic. -/
def U64 : Nat := 0x10000000000000000

/-! ## Bit-level primitives -/

/-- TASK_NUM_TO_BIT from os.c: `1 << (31UL - x)`; MSB = task 0. -/
def TASK_NUM_TO_BIT (x : Nat) : Nat := 2 ^ (31 - x)

/-- C bitwise complement `~x` on uint32_t, for `x < 2^32`. -/
def cnot32 (x : Nat) : Nat := 0xFFFFFFFF ^^^ x

/-- Leading zeros of `v` within its low `w` bits (scanning from bit `w-1`
downwards).  Structural helper for `clz32`. -/
def clzw : Nat → Nat → Nat
  | 0, _ => 0
  | w + 1, v => if v.testBit w then 0 else clzw w v + 1

/-- The ARM CLZ instruction on a 32-bit value, as used through
STM_Count_Leading_Zeros: number of leading zero bits; 32 for input 0. -/
def clz32 (v : Nat) : Nat := clzw 32 v

/-- Membership of task `t` in a state vector `m`: bit `31 - t` is set
(MSB-is-task-0 convention of os.c). -/
def memb (m t : Nat) : Bool := m.testBit (31 - t)

/-- One step of the do-while scan loops of os.c: clear the bit found by
count-leading-zeros, `m &= ~(TASK_NUM_TO_BIT(CountLeadingZeros(m)))`. -/
def clearTop (m : Nat) : Nat := m &&& cnot32 (TASK_NUM_TO_BIT (clz32 m))

/-- Number of set bits among the low 32 bits. -/
def popcount32 (m : Nat) : Nat :=
  Finset.sum (Finset.range 32) (fun i => (m.testBit i).toNat)

/-! ## Properties of the CLZ scan primitive -/

theorem clzw_le : ∀ w v, clzw w v ≤ w := by
  intro w
  induction w with
  | zero => intro v; simp [clzw]
  | succ w ih =>
    intro v
    simp only [clzw]
    split
    · exact Nat.zero_le _
    · exact Nat.succ_le_succ (ih v)

theorem lt_pow_of_testBit_high_false {v w : Nat} (hlt : v < 2 ^ (w + 1))
    (hbit : v.testBit w = false) : v < 2 ^ w := by
  by_contra hge
  have hge2 : 2 ^ w ≤ v := Nat.le_of_not_lt hge
  have hpos : 0 < 2 ^ w := Nat.pos_pow_of_pos w (by omega)
  have hdivlt : v / 2 ^ w < 2 := by
    apply Nat.div_lt_of_lt_mul
    calc v < 2 ^ (w + 1) := hlt
    _ = 2 ^ w * 2 := by rw [Nat.pow_succ]
  have hdivge : 1 ≤ v / 2 ^ w := (Nat.one_le_div_iff hpos).mpr hge2
  have hdiv : v / 2 ^ w = 1 := by omega
  rw [Nat.testBit_to_div_mod, hdiv] at hbit
  simp at hbit

theorem clzw_spec : ∀ w v, v ≠ 0 → v < 2 ^ w →
    clzw w v < w ∧ v.testBit (w - 1 - clzw w v) = true ∧
      ∀ i, w - 1 - clzw w v < i → v.testBit i = false := by
  intro w
  induction w with
  | zero =>
    intro v h0 hlt
    exact absurd (Nat.lt_one_iff.mp hlt) h0
  | succ w ih =>
    intro v h0 hlt
    by_cases hbit : v.testBit w
    · refine ⟨by simp [clzw, hbit], by simp [clzw, hbit], ?_⟩
      intro i hi
      simp only [clzw, hbit, if_pos] at hi
      have hvi : v < 2 ^ i := by
        calc v < 2 ^ (w + 1) := hlt
        _ ≤ 2 ^ i := Nat.pow_le_pow_right (by omega) (by omega)
      exact Nat.testBit_lt_two_pow hvi
    · have hbf : v.testBit w = false := by simpa using hbit
      have hvw : v < 2 ^ w := lt_pow_of_testBit_high_false hlt hbf
      obtain ⟨h1, h2, h3⟩ := ih v h0 hvw
      have hcl : clzw (w + 1) v = clzw w v + 1 := by simp [clzw, hbf]
      have hidx : w + 1 - 1 - clzw (w + 1) v = w - 1 - clzw w v := by omega
      refine ⟨by omega, by rw [hidx]; exact h2, ?_⟩
      intro i hi
      rw [hidx] at hi
      exact h3 i hi

theorem clz32_lt {v : Nat} (h0 : v ≠ 0) (h32 : v < U32) : clz32 v < 32 :=
  (clzw_spec 32 v h0 h32).1

theorem memb_clz32 {v : Nat} (h0 : v ≠ 0) (h32 : v < U32) :
    memb v (clz32 v) = true := by
  have h := (clzw_spec 32 v h0 h32).2.1
  simpa [memb] using h

theorem memb_below_clz32 {v : Nat} (h0 : v ≠ 0) (h32 : v < U32) :
    ∀ u, u < clz32 v → memb v u = false := by
  intro u hu
  have hlt := clz32_lt h0 h32
  simp only [clz32] at hu hlt
  have := (clzw_spec 32 v h0 h32).2.2 (31 - u) (by omega)
  simpa [memb] using this

theorem bit_pos (t : Nat) : 0 < TASK_NUM_TO_BIT t :=
  Nat.pos_pow_of_pos _ (by omega)

theorem bit_lt_U32 (t : Nat) : TASK_NUM_TO_BIT t < U32 := by
  have h1 : TASK_NUM_TO_BIT t ≤ 2 ^ 31 :=
    Nat.pow_le_pow_right (by omega) (by omega)
  have h2 : (2 : Nat) ^ 31 < 2 ^ 32 := Nat.pow_lt_pow_right (by omega) (by omega)
  calc TASK_NUM_TO_BIT t ≤ 2 ^ 31 := h1
  _ < U32 := h2

theorem bit_ne_zero (t : Nat) : TASK_NUM_TO_BIT t ≠ 0 :=
  Nat.pos_iff_ne_zero.mp (bit_pos t)

theorem clz32_bit {t : Nat} (ht : t < 32) : clz32 (TASK_NUM_TO_BIT t) = t := by
  have hc := memb_clz32 (bit_ne_zero t) (bit_lt_U32 t)
  have hlt := clz32_lt (bit_ne_zero t) (bit_lt_U32 t)
  simp only [memb, TASK_NUM_TO_BIT] at hc hlt ⊢
  rw [Nat.testBit_two_pow] at hc
  have := of_decide_eq_true hc
  omega

/-! ## Transfer lemmas for set-vector updates -/

theorem memb_or (a b t : Nat) : memb (a ||| b) t = (memb a t || memb b t) := by
  simp [memb, Nat.testBit_or]

theorem memb_zero (t : Nat) : memb 0 t = false := by
  simp [memb]

theorem memb_bit {k t : Nat} (hk : k < 32) (ht : t < 32) :
    memb (TASK_NUM_TO_BIT k) t = decide (t = k) := by
  simp only [memb, TASK_NUM_TO_BIT, Nat.testBit_two_pow]
  rcases Nat.decEq t k with h | h
  · simp only [decide_eq_decide]
    omega
  · simp [h]

theorem memb_cnot_bit {k t : Nat} (hk : k < 32) (ht : t < 32) :
    memb (cnot32 (TASK_NUM_TO_BIT k)) t = !decide (t = k) := by
  have hmask : (0xFFFFFFFF : Nat) = 2 ^ 32 - 1 := by norm_num
  simp only [memb, cnot32, TASK_NUM_TO_BIT, Nat.testBit_xor, hmask,
    Nat.testBit_two_pow_sub_one, Nat.testBit_two_pow]
  have h1 : decide (31 - t < 32) = true := decide_eq_true (by omega)
  have h2 : decide (31 - k = 31 - t) = decide (t = k) := by
    simp only [decide_eq_decide]
    omega
  rw [h1, h2]
  cases decide (t = k) <;> rfl

theorem memb_clear {m k t : Nat} (hk : k < 32) (ht : t < 32) :
    memb (m &&& cnot32 (TASK_NUM_TO_BIT k)) t = (memb m t && !decide (t = k)) := by
  have h := memb_cnot_bit hk ht
  simp only [memb, Nat.testBit_and] at *
  rw [h]

theorem memb_true_ne_zero {m t : Nat} (h : memb m t = true) : m ≠ 0 := by
  intro h0
  rw [h0, memb_zero] at h
  exact Bool.false_ne_true h

theorem cnot32_bit_lt (k : Nat) : cnot32 (TASK_NUM_TO_BIT k) < U32 := by
  have h1 : (0xFFFFFFFF : Nat) < 2 ^ 32 := by norm_num
  have h2 := bit_lt_U32 k
  exact Nat.xor_lt_two_pow h1 h2

theorem and_lt_U32_right {a b : Nat} (hb : b < U32) : a &&& b < U32 :=
  Nat.lt_of_le_of_lt Nat.and_le_right hb

theorem and_lt_U32_left {a b : Nat} (ha : a < U32) : a &&& b < U32 :=
  Nat.lt_of_le_of_lt Nat.and_le_left ha

theorem or_lt_U32 {a b : Nat} (ha : a < U32) (hb : b < U32) : a ||| b < U32 :=
  @Nat.or_lt_two_pow a b 32 ha hb

/-- A submask relation expressed through the bitwise and. -/
theorem and_eq_left_iff {a b : Nat} :
    a &&& b = a ↔ ∀ i, a.testBit i = true → b.testBit i = true := by
  constructor
  · intro h i hi
    have := congrArg (fun x => Nat.testBit x i) h
    simp only [Nat.testBit_and, hi, Bool.true_and] at this
    exact this
  · intro h
    apply Nat.eq_of_testBit_eq
    intro i
    rw [Nat.testBit_and]
    rcases hb : a.testBit i with _ | _
    · simp
    · simp [h i hb]

/-! ## The strict-decrease argument behind every do-while scan loop -/

theorem clearTop_lt {m : Nat} (h0 : m ≠ 0) : clearTop m < m := by
  by_cases h32 : m < U32
  · have hmem := memb_clz32 h0 h32
    have hlt := clz32_lt h0 h32
    apply Nat.lt_of_le_of_ne Nat.and_le_left
    intro heq
    have hbit : memb (m &&& cnot32 (TASK_NUM_TO_BIT (clz32 m))) (clz32 m) =
        memb m (clz32 m) := by rw [heq]
    rw [memb_clear hlt hlt] at hbit
    simp [hmem] at hbit
  · have h1 : clearTop m < U32 := and_lt_U32_right (cnot32_bit_lt _)
    omega

theorem popcount32_clearTop {m : Nat} (h0 : m ≠ 0) (h32 : m < U32) :
    popcount32 (clearTop m) + 1 = popcount32 m := by
  have hlt := clz32_lt h0 h32
  have hmem := memb_clz32 h0 h32
  set j : Nat := 31 - clz32 m with hj
  have hjlt : j < 32 := by omega
  have hjm : j ∈ Finset.range 32 := Finset.mem_range.mpr hjlt
  have hbitj : m.testBit j = true := hmem
  have hbits : ∀ i, i < 32 → (clearTop m).testBit i = (m.testBit i && !decide (i = j)) := by
    intro i hi
    have h := @memb_clear m (clz32 m) (31 - i) hlt (by omega)
    simp only [memb] at h
    have hii : 31 - (31 - i) = i := by omega
    rw [hii] at h
    unfold clearTop
    rw [h]
    have hd : (decide (31 - i = clz32 m)) = (decide (i = j)) := by
      simp only [decide_eq_decide]
      omega
    rw [hd]
  unfold popcount32
  rw [← Finset.sum_erase_add (Finset.range 32) _ hjm,
      ← Finset.sum_erase_add (Finset.range 32) _ hjm]
  have hsame : Finset.sum ((Finset.range 32).erase j) (fun i => ((clearTop m).testBit i).toNat) =
      Finset.sum ((Finset.range 32).erase j) (fun i => (m.testBit i).toNat) := by
    apply Finset.sum_congr rfl
    intro i hi
    obtain ⟨hne, hirange⟩ := Finset.mem_erase.mp hi
    rw [hbits i (Finset.mem_range.mp hirange)]
    simp [hne]
  rw [hsame, hbits j hjlt]
  simp [hbitj]

/-- Number of iterations of a count-leading-zeros do-while scan loop over a
working mask, mirroring the loop skeleton shared by the wake scan and the
candidate scans in os.c. -/
def scanSteps (m : Nat) : Nat :=
  if h : m = 0 then 0 else scanSteps (clearTop m) + 1
termination_by m
decreasing_by exact clearTop_lt h

theorem popcount32_zero : popcount32 0 = 0 := by
  unfold popcount32
  simp

theorem scanSteps_popcount : ∀ m, m < U32 → scanSteps m = popcount32 m := by
  intro m
  induction m using Nat.strong_induction_on with
  | _ m ih =>
    intro h32
    by_cases h0 : m = 0
    · rw [h0, scanSteps, popcount32_zero]
      simp
    · rw [scanSteps]
      simp only [h0, dite_false]
      have hct := clearTop_lt h0
      rw [ih (clearTop m) hct (by omega)]
      exact popcount32_clearTop h0 h32

/-! ## Task records and scheduler state

`Task` models the scheduler-owned fields of task_t (os.h): the saved stack
pointer (as a byte offset, since the embedding has no address space), the
priority, and the wakeup time.  `SchedState` models the five entries of
task_state_list together with the __tasks table and a counter of
PendSV_trigger calls (the observable effect of requesting a context switch).
-/

/-- Scheduler-relevant fields of task_t from os.h. -/
structure Task where
  sp : Nat
  prio : Nat
  wakeup_time : Nat
deriving DecidableEq, Repr

/-- The scheduler state: task_state_list[NEXT..EJECTED], the task table, and
the number of PendSV_trigger calls made so far. -/
structure SchedState where
  next : Nat
  ready : Nat
  pending : Nat
  running : Nat
  ejected : Nat
  tasks : Nat → Task
  pendsvCount : Nat

/-- Write `w` into `__tasks[i].wakeup_time`. -/
def setWakeup (f : Nat → Task) (i w : Nat) : Nat → Task :=
  fun t => if t = i then { f i with wakeup_time := w } else f t

/-! ## The scheduler functions of os.c -/

/-- The reclaim block at the top of schedule (os.c): move the EJECTED task to
PENDING when its wakeup_time is set, otherwise to READY, then clear EJECTED. -/
def reclaimSchedule (s : SchedState) : SchedState :=
  if s.ejected ≠ 0 then
    if (s.tasks (clz32 s.ejected)).wakeup_time ≠ OS_NOSLEEP then
      { s with pending := s.pending ||| s.ejected, ejected := 0 }
    else
      { s with ready := s.ready ||| s.ejected, ejected := 0 }
  else s

/-- The reclaim block at the top of yield (os.c), transcribed separately from
its own source lines. -/
def reclaimYield (s : SchedState) : SchedState :=
  if s.ejected ≠ 0 then
    if (s.tasks (clz32 s.ejected)).wakeup_time ≠ OS_NOSLEEP then
      { s with pending := s.pending ||| s.ejected, ejected := 0 }
    else
      { s with ready := s.ready ||| s.ejected, ejected := 0 }
  else s

/-- The wake-scan do-while loop of schedule (os.c): iterate over a working
copy of the PENDING mask; wake each task whose sleep is over
(`ticks > wakeup_time`, strict). -/
def wakeScan (ticks : Nat) (s : SchedState) (pending : Nat) : SchedState :=
  let task := clz32 pending
  let s1 :=
    if ticks > (s.tasks task).wakeup_time then
      { s with tasks := setWakeup s.tasks task OS_NOSLEEP,
               pending := s.pending &&& cnot32 (TASK_NUM_TO_BIT task),
               ready := s.ready ||| TASK_NUM_TO_BIT task }
    else s
  let pending1 := pending &&& cnot32 (TASK_NUM_TO_BIT task)
  if h : pending1 ≠ 0 then wakeScan ticks s1 pending1 else s1
termination_by pending
decreasing_by
  apply clearTop_lt
  intro h0
  apply h
  show pending &&& cnot32 (TASK_NUM_TO_BIT (clz32 pending)) = 0
  rw [h0]
  simp

/-- The candidate-scan do-while loop shared by schedule and yield (os.c):
count-leading-zeros scan over a working copy of the READY mask; break on the
first candidate whose priority is at least `curPrio`; fall back to `dflt`
(the current task) when the mask is exhausted. -/
def scanCandidates (tasks : Nat → Task) (curPrio : Nat) (candidates : Nat)
    (dflt : Nat) : Nat :=
  let cand := clz32 candidates
  if (tasks cand).prio ≥ curPrio then cand
  else
    let candidates1 := candidates &&& cnot32 (TASK_NUM_TO_BIT cand)
    if h : candidates1 ≠ 0 then scanCandidates tasks curPrio candidates1 dflt
    else dflt
termination_by candidates
decreasing_by
  apply clearTop_lt
  intro h0
  apply h
  show candidates &&& cnot32 (TASK_NUM_TO_BIT (clz32 candidates)) = 0
  rw [h0]
  simp

/-- The preemption decision at the end of schedule (os.c): find the current
task from RUNNING, scan READY for an equal-or-higher-priority candidate, and
when a different task is selected set NEXT, clear its READY bit and trigger
PendSV. -/
def preemptDecision (s : SchedState) : SchedState :=
  if scanCandidates s.tasks (s.tasks (clz32 s.running)).prio s.ready
      (clz32 s.running) ≠ clz32 s.running then
    { s with next := TASK_NUM_TO_BIT (scanCandidates s.tasks
          (s.tasks (clz32 s.running)).prio s.ready (clz32 s.running)),
             ready := s.ready &&& cnot32 (TASK_NUM_TO_BIT (scanCandidates s.tasks
          (s.tasks (clz32 s.running)).prio s.ready (clz32 s.running))),
             pendsvCount := s.pendsvCount + 1 }
  else s

/-- schedule from os.c, with the current tick count passed explicitly in
place of the TICK_get() call. -/
def schedule (ticks : Nat) (s0 : SchedState) : SchedState :=
  if (reclaimSchedule s0).pending = 0 then reclaimSchedule s0
  else if (wakeScan ticks (reclaimSchedule s0) (reclaimSchedule s0).pending).pending
      ≠ (reclaimSchedule s0).pending then
    preemptDecision (wakeScan ticks (reclaimSchedule s0) (reclaimSchedule s0).pending)
  else wakeScan ticks (reclaimSchedule s0) (reclaimSchedule s0).pending

/-- yield from os.c. -/
def yieldNext (s : SchedState) : Nat :=
  if scanCandidates s.tasks (s.tasks (clz32 s.running)).prio s.ready
      (clz32 s.running) = clz32 s.running then clz32 s.ready
  else scanCandidates s.tasks (s.tasks (clz32 s.running)).prio s.ready
      (clz32 s.running)

def yield (s0 : SchedState) : SchedState :=
  if (reclaimYield s0).ready = 0 then reclaimYield s0
  else if scanCandidates (reclaimYield s0).tasks
        ((reclaimYield s0).tasks (clz32 (reclaimYield s0).running)).prio
        (reclaimYield s0).ready (clz32 (reclaimYield s0).running)
      = clz32 (reclaimYield s0).running ∧
      ((reclaimYield s0).tasks (clz32 (reclaimYield s0).running)).wakeup_time
      = OS_NOSLEEP then reclaimYield s0
  else
    { reclaimYield s0 with
      next := TASK_NUM_TO_BIT (yieldNext (reclaimYield s0)),
      ready := (reclaimYield s0).ready &&&
        cnot32 (TASK_NUM_TO_BIT (yieldNext (reclaimYield s0))),
      pendsvCount := (reclaimYield s0).pendsvCount + 1 }

/-- C conversion `(uint64_t)ms` of a signed int, modulo 2^64. -/
def toUint64 (ms : Int) : Nat := (ms % (18446744073709551616 : Int)).toNat

/-- The wakeup value computed by sleep (os.c):
`TICK_get() + (uint64_t)ms`, wrapping modulo 2^64. -/
def wakeupVal (ticks : Nat) (ms : Int) : Nat := (ticks + toUint64 ms) % U64

/-- sleep from os.c: record the wakeup time of the running task, then yield.
The tick count is passed explicitly in place of TICK_get(). -/
def sleep (ticks : Nat) (ms : Int) (s : SchedState) : SchedState :=
  yield { s with tasks := setWakeup s.tasks (clz32 s.running) (wakeupVal ticks ms) }

/-! ## State-partition bookkeeping (for the task-state invariant) -/

/-- Number of the four sets READY, PENDING, RUNNING, EJECTED that task `t`
belongs to. -/
def count4 (s : SchedState) (t : Nat) : Nat :=
  (memb s.ready t).toNat + (memb s.pending t).toNat +
  (memb s.running t).toNat + (memb s.ejected t).toNat

/-- Number of the five sets READY, PENDING, RUNNING, EJECTED, NEXT that task
`t` belongs to. -/
def count5 (s : SchedState) (t : Nat) : Nat :=
  count4 s t + (memb s.next t).toNat

/-- The spec's partition invariant: every task below `n` is in exactly one
of READY, PENDING, RUNNING, EJECTED. -/
def partitioned4 (n : Nat) (s : SchedState) : Prop :=
  ∀ t, t < n → count4 s t = 1

/-- Well-formed steady state with `n` tasks: NEXT empty, all vectors 32-bit,
tasks below `n` in exactly one of the four sets and no junk bits above. -/
def vecsWF (n : Nat) (s : SchedState) : Prop :=
  n ≤ 32 ∧ s.next = 0 ∧ s.ready < U32 ∧ s.pending < U32 ∧
  s.running < U32 ∧ s.ejected < U32 ∧
  (∀ t, t < 32 → (t < n → count4 s t = 1) ∧ (n ≤ t → count4 s t = 0))

instance (n : Nat) (s : SchedState) : Decidable (vecsWF n s) := by
  unfold vecsWF
  infer_instance

/-! ## Bootstrap: scheduler_start and its collaborators -/

/-- uint32_t addition. -/
def add32 (a b : Nat) : Nat := (a + b) % U32

/-- uint32_t subtraction (wrapping). -/
def sub32 (a b : Nat) : Nat := (a + (U32 - b % U32)) % U32

/-- uint32_t multiplication. -/
def mul32 (a b : Nat) : Nat := (a * b) % U32

/-- TASK_NUM_TO_INITIAL_SP from os.c, as a byte offset into task_stacks
computed with uint32_t arithmetic:
the idle task (last task) gets
`((tasknum - 1) * TASK_STACK_SIZE) + IDLE_STACK_SIZE - 0x4`,
every other task gets `(tasknum * TASK_STACK_SIZE) - 0x4`. -/
def TASK_NUM_TO_INITIAL_SP (tasksCount tasknum : Nat) : Nat :=
  if tasknum = sub32 tasksCount 1 then
    sub32 (add32 (mul32 (sub32 tasknum 1) TASK_STACK_SIZE) IDLE_STACK_SIZE) 4
  else
    sub32 (mul32 tasknum TASK_STACK_SIZE) 4

/-- Size in bytes of the task_stacks region allocated by OS_TASKS_INIT
(os.h): `(count - 1) * TASK_STACK_SIZE + IDLE_STACK_SIZE`. -/
def taskStacksBytes (tasksCount : Nat) : Nat :=
  (tasksCount - 1) * TASK_STACK_SIZE + IDLE_STACK_SIZE

/-- Net effect of STM_Task_Stack_init (system_cortex_m33.c) on task->sp:
18 word-sized pushes below the initial sp, then one increment, i.e. the stored
sp ends 17 words (68 bytes) below the initial value. -/
def TaskStackInitSp (sp : Nat) : Nat := sub32 sp 68

/-- TICK_init from system.h: SYSTEM_ERROR when the driver pointer or the
callback is missing or when the driver's TickInit returns nonzero. -/
def TICK_init (driverPresent cbPresent : Bool) (driverRet : Nat) : Nat :=
  if !driverPresent || !cbPresent then SYSTEM_ERROR
  else if driverRet ≠ 0 then SYSTEM_ERROR
  else SYSTEM_OK

/-- PendSV_init from system.h: SYSTEM_ERROR when the driver pointer is
missing or the driver's PendSVInit returns nonzero. -/
def PendSV_init (driverPresent : Bool) (driverRet : Nat) : Nat :=
  if !driverPresent then SYSTEM_ERROR
  else if driverRet ≠ 0 then SYSTEM_ERROR
  else SYSTEM_OK

/-- Observable outcome of scheduler_start: the task table, the READY and
RUNNING vectors, whether the error message was printed, whether PendSV_init
and TICK_init were invoked, and which task (if any) was dispatched by the
final direct call. -/
structure BootOut where
  tasks : List Task
  ready : Nat
  running : Nat
  errorPrinted : Bool
  pendsvInitCalled : Bool
  tickInitCalled : Bool
  dispatched : Option Nat

/-- The per-task initialization loop of scheduler_start (os.c): assign each
task its initial stack pointer (then run the architecture stack initializer,
which rewrites sp 68 bytes lower), clear its wakeup time, mark task 0 RUNNING
and every other task READY. -/
def initTasksLoop (cnt : Nat) : Nat → List Task → Nat → Nat → List Task × Nat × Nat
  | i, ts, ready, running =>
    if h : i < cnt then
      let t := ts.getD i ⟨0, 0, 0⟩
      let t1 : Task := { t with sp := TaskStackInitSp (TASK_NUM_TO_INITIAL_SP cnt i),
                                wakeup_time := OS_NOSLEEP }
      let ts1 := ts.set i t1
      let ready1 := if i > 0 then ready ||| TASK_NUM_TO_BIT i else ready
      let running1 := if i > 0 then running else running ||| TASK_NUM_TO_BIT i
      initTasksLoop cnt (i + 1) ts1 ready1 running1
    else (ts, ready, running)
termination_by i => cnt - i
decreasing_by omega

/-- scheduler_start from os.c.  `tickRet` and `psvRet` are the values
returned by TICK_init and PendSV_init; the C code calls both functions
without inspecting their results, so they do not influence the outcome.
The state vectors start from their zero-initialized static values. -/
def scheduler_start (tickRet psvRet : Nat) (tasks0 : List Task) : BootOut :=
  let cnt := tasks0.length
  if cnt > MAX_NUM_TASKS then
    { tasks := tasks0, ready := 0, running := 0, errorPrinted := true,
      pendsvInitCalled := false, tickInitCalled := false, dispatched := none }
  else
    let p := initTasksLoop cnt 0 tasks0 0 0
    { tasks := p.1, ready := p.2.1, running := p.2.2, errorPrinted := false,
      pendsvInitCalled := true, tickInitCalled := true, dispatched := some 0 }

/-! ## Concrete data mirroring the sample application (app.c) -/

/-- A task record with a given priority, not sleeping. -/
def appTask (p : Nat) : Task := { sp := 0, prio := p, wakeup_time := OS_NOSLEEP }

/-- The task table registered by app.c: taskA (prio 1), taskB (prio 1), and
the auto-appended idle task (prio 0). -/
def appTasksList : List Task := [appTask 1, appTask 1, appTask 0]

/-- The same table as a total function (entries beyond 2 are junk, as in C). -/
def tasksABC : Nat → Task := fun t =>
  if t = 0 then appTask 1
  else if t = 1 then appTask 1
  else appTask 0

/-- The sample-app state right after boot once taskB has become READY:
task 0 (prio 1) running, tasks 1 and 2 READY. -/
def sChoice : SchedState :=
  { next := 0, ready := TASK_NUM_TO_BIT 1 ||| TASK_NUM_TO_BIT 2, pending := 0,
    running := TASK_NUM_TO_BIT 0, ejected := 0, tasks := tasksABC,
    pendsvCount := 0 }

/-- A state where the caller (task 0, prio 2) is sleeping until tick 100 and
only the idle task (task 2, prio 0) is READY. -/
def sYield : SchedState :=
  { next := 0, ready := TASK_NUM_TO_BIT 2, pending := 0,
    running := TASK_NUM_TO_BIT 0, ejected := 0,
    tasks := fun t => if t = 0 then { sp := 0, prio := 2, wakeup_time := 100 }
             else tasksABC t,
    pendsvCount := 0 }

/-- A state used to witness the wake scan: task 1 is PENDING with wakeup
time 5, task 0 running, idle ready. -/
def sWake : SchedState :=
  { next := 0, ready := TASK_NUM_TO_BIT 2, pending := TASK_NUM_TO_BIT 1,
    running := TASK_NUM_TO_BIT 0, ejected := 0,
    tasks := fun t => if t = 1 then { sp := 0, prio := 1, wakeup_time := 5 }
             else tasksABC t,
    pendsvCount := 0 }

/-- A state with task 1 just context-switched out (EJECTED) while sleeping
until tick 500, task 0 running, and the idle task ready. -/
def sReclaim : SchedState :=
  { next := 0, ready := TASK_NUM_TO_BIT 2, pending := 0,
    running := TASK_NUM_TO_BIT 0, ejected := TASK_NUM_TO_BIT 1,
    tasks := fun t => if t = 1 then { sp := 0, prio := 1, wakeup_time := 500 }
             else tasksABC t,
    pendsvCount := 0 }

/-! ## Basic facts about scheduler_start -/

theorem scheduler_start_rejected {tickRet psvRet : Nat} {tasks0 : List Task}
    (h : tasks0.length > MAX_NUM_TASKS) :
    scheduler_start tickRet psvRet tasks0 =
      { tasks := tasks0, ready := 0, running := 0, errorPrinted := true,
        pendsvInitCalled := false, tickInitCalled := false, dispatched := none } := by
  unfold scheduler_start
  rw [if_pos h]

theorem scheduler_start_accepted {tickRet psvRet : Nat} {tasks0 : List Task}
    (h : tasks0.length ≤ MAX_NUM_TASKS) :
    (scheduler_start tickRet psvRet tasks0).errorPrinted = false ∧
    (scheduler_start tickRet psvRet tasks0).dispatched = some 0 ∧
    (scheduler_start tickRet psvRet tasks0).tickInitCalled = true := by
  unfold scheduler_start
  rw [if_neg (by omega)]
  exact ⟨rfl, rfl, rfl⟩

/-! ## Characterization of the candidate scan -/

theorem scanCandidates_step (T : Nat → Task) (p c d : Nat) :
    scanCandidates T p c d =
      if (T (clz32 c)).prio ≥ p then clz32 c
      else if h : c &&& cnot32 (TASK_NUM_TO_BIT (clz32 c)) ≠ 0 then
        scanCandidates T p (c &&& cnot32 (TASK_NUM_TO_BIT (clz32 c))) d
      else d := by
  rw [scanCandidates]

/-- The candidate scan returns the lowest-numbered candidate of
equal-or-higher priority when one exists, and the default `dflt` when none
does; any non-default return value is a member of the scanned mask. -/
theorem scanCandidates_spec (T : Nat → Task) (p d : Nat) : ∀ c, c ≠ 0 → c < U32 →
    ((∀ t, t < 32 → memb c t = true → (T t).prio < p) →
        scanCandidates T p c d = d) ∧
    ((∃ t, t < 32 ∧ memb c t = true ∧ p ≤ (T t).prio) →
        scanCandidates T p c d < 32 ∧
        memb c (scanCandidates T p c d) = true ∧
        p ≤ (T (scanCandidates T p c d)).prio ∧
        ∀ u, u < scanCandidates T p c d → memb c u = true → (T u).prio < p) ∧
    (scanCandidates T p c d = d ∨
      (memb c (scanCandidates T p c d) = true ∧ scanCandidates T p c d < 32)) := by
  intro c
  induction c using Nat.strong_induction_on with
  | _ c IH =>
    intro h0 h32
    have hk : clz32 c < 32 := clz32_lt h0 h32
    have hmemk : memb c (clz32 c) = true := memb_clz32 h0 h32
    have hbelow : ∀ u, u < clz32 c → memb c u = false := memb_below_clz32 h0 h32
    by_cases hge : p ≤ (T (clz32 c)).prio
    · have hres : scanCandidates T p c d = clz32 c := by
        rw [scanCandidates_step, if_pos hge]
      refine ⟨?_, ?_, ?_⟩
      · intro hall
        have := hall (clz32 c) hk hmemk
        omega
      · intro _
        rw [hres]
        refine ⟨hk, hmemk, hge, ?_⟩
        intro u hu hm
        rw [hbelow u hu] at hm
        exact absurd hm (by simp)
      · right
        rw [hres]
        exact ⟨hmemk, hk⟩
    · have hklow : (T (clz32 c)).prio < p := by omega
      by_cases hc1 : c &&& cnot32 (TASK_NUM_TO_BIT (clz32 c)) ≠ 0
      · have hres : scanCandidates T p c d =
            scanCandidates T p (c &&& cnot32 (TASK_NUM_TO_BIT (clz32 c))) d := by
          rw [scanCandidates_step, if_neg hge, dif_pos hc1]
        have hlt : c &&& cnot32 (TASK_NUM_TO_BIT (clz32 c)) < c := clearTop_lt h0
        have h321 : c &&& cnot32 (TASK_NUM_TO_BIT (clz32 c)) < U32 :=
          and_lt_U32_left h32
        have htrans : ∀ t, t < 32 →
            memb (c &&& cnot32 (TASK_NUM_TO_BIT (clz32 c))) t =
              (memb c t && !decide (t = clz32 c)) := by
          intro t ht
          exact memb_clear hk ht
        obtain ⟨ih1, ih2, ih3⟩ := IH _ hlt hc1 h321
        rw [hres]
        refine ⟨?_, ?_, ?_⟩
        · intro hall
          apply ih1
          intro t ht hmt
          rw [htrans t ht] at hmt
          exact hall t ht (by
            rw [Bool.and_eq_true] at hmt
            exact hmt.1)
        · intro hex
          obtain ⟨t, ht32, hmt, hpt⟩ := hex
          have htk : t ≠ clz32 c := by
            intro he
            rw [he] at hpt
            omega
          have hmt1 : memb (c &&& cnot32 (TASK_NUM_TO_BIT (clz32 c))) t = true := by
            rw [htrans t ht32, hmt]
            simp [htk]
          obtain ⟨hr32, hm1, hp1, hmin1⟩ := ih2 ⟨t, ht32, hmt1, hpt⟩
          rw [htrans _ hr32, Bool.and_eq_true] at hm1
          obtain ⟨hmr, _⟩ := hm1
          refine ⟨hr32, hmr, hp1, ?_⟩
          intro u hu hmu
          by_cases huk : u = clz32 c
          · rw [huk]
            exact hklow
          · apply hmin1 u hu
            rw [htrans u (by omega), hmu]
            simp [huk]
        · rcases ih3 with hd | ⟨hm, hr32⟩
          · left
            exact hd
          · right
            rw [htrans _ hr32, Bool.and_eq_true] at hm
            exact ⟨hm.1, hr32⟩
      · have hres : scanCandidates T p c d = d := by
          rw [scanCandidates_step, if_neg hge, dif_neg hc1]
        refine ⟨fun _ => hres, ?_, Or.inl hres⟩
        intro hex
        obtain ⟨t, ht32, hmt, hpt⟩ := hex
        have htk : t ≠ clz32 c := by
          intro he
          rw [he] at hpt
          omega
        have hmt1 : memb (c &&& cnot32 (TASK_NUM_TO_BIT (clz32 c))) t = true := by
          rw [memb_clear hk ht32, hmt]
          simp [htk]
        have h0c : c &&& cnot32 (TASK_NUM_TO_BIT (clz32 c)) = 0 := by
          by_contra hc
          exact hc1 hc
        rw [h0c, memb_zero] at hmt1
        exact absurd hmt1 (by simp)

/-! ## Characterization of the wake scan -/

theorem wakeScan_unfold (ticks : Nat) (s : SchedState) (p : Nat) :
    wakeScan ticks s p =
      if h : p &&& cnot32 (TASK_NUM_TO_BIT (clz32 p)) ≠ 0 then
        wakeScan ticks
          (if ticks > (s.tasks (clz32 p)).wakeup_time then
            { s with tasks := setWakeup s.tasks (clz32 p) OS_NOSLEEP,
                     pending := s.pending &&& cnot32 (TASK_NUM_TO_BIT (clz32 p)),
                     ready := s.ready ||| TASK_NUM_TO_BIT (clz32 p) }
          else s)
          (p &&& cnot32 (TASK_NUM_TO_BIT (clz32 p)))
      else
        (if ticks > (s.tasks (clz32 p)).wakeup_time then
          { s with tasks := setWakeup s.tasks (clz32 p) OS_NOSLEEP,
                   pending := s.pending &&& cnot32 (TASK_NUM_TO_BIT (clz32 p)),
                   ready := s.ready ||| TASK_NUM_TO_BIT (clz32 p) }
        else s) := by
  rw [wakeScan]

/-- Full characterization of the wake scan over a working mask `p` that is a
submask of the live PENDING vector: NEXT, RUNNING, EJECTED and the trigger
count are untouched; a task in `p` is woken (PENDING bit cleared, READY bit
set, wakeup_time reset to the sentinel) exactly when `ticks` is strictly
greater than its wakeup time, and everything else is left untouched. -/
theorem wakeScan_spec (ticks : Nat) : ∀ p s, p ≠ 0 → p < U32 →
    s.pending < U32 → s.ready < U32 → p &&& s.pending = p →
    (wakeScan ticks s p).next = s.next ∧
    (wakeScan ticks s p).running = s.running ∧
    (wakeScan ticks s p).ejected = s.ejected ∧
    (wakeScan ticks s p).pendsvCount = s.pendsvCount ∧
    (wakeScan ticks s p).pending < U32 ∧
    (wakeScan ticks s p).ready < U32 ∧
    ∀ t, t < 32 →
      (memb p t = true →
        (ticks > (s.tasks t).wakeup_time →
          memb (wakeScan ticks s p).pending t = false ∧
          memb (wakeScan ticks s p).ready t = true ∧
          ((wakeScan ticks s p).tasks t).wakeup_time = OS_NOSLEEP) ∧
        (¬ ticks > (s.tasks t).wakeup_time →
          memb (wakeScan ticks s p).pending t = memb s.pending t ∧
          memb (wakeScan ticks s p).ready t = memb s.ready t ∧
          (wakeScan ticks s p).tasks t = s.tasks t)) ∧
      (memb p t = false →
        memb (wakeScan ticks s p).pending t = memb s.pending t ∧
        memb (wakeScan ticks s p).ready t = memb s.ready t ∧
        (wakeScan ticks s p).tasks t = s.tasks t) := by
  intro p
  induction p using Nat.strong_induction_on with
  | _ p IH =>
    intro s hp0 hp32 hsp hsr hsub
    have hk : clz32 p < 32 := clz32_lt hp0 hp32
    have hmemk : memb p (clz32 p) = true := memb_clz32 hp0 hp32
    have hmembp1 : ∀ t, t < 32 →
        memb (p &&& cnot32 (TASK_NUM_TO_BIT (clz32 p))) t =
          (memb p t && !decide (t = clz32 p)) :=
      fun t ht => memb_clear hk ht
    have hp1lt : p &&& cnot32 (TASK_NUM_TO_BIT (clz32 p)) < p := clearTop_lt hp0
    have hp1_32 : p &&& cnot32 (TASK_NUM_TO_BIT (clz32 p)) < U32 :=
      and_lt_U32_left hp32
    have hm_imp : ∀ i, p.testBit i = true → s.pending.testBit i = true :=
      and_eq_left_iff.mp hsub
    rw [wakeScan_unfold]
    by_cases hwake : ticks > (s.tasks (clz32 p)).wakeup_time
    · rw [if_pos hwake]
      by_cases hp1 : p &&& cnot32 (TASK_NUM_TO_BIT (clz32 p)) ≠ 0
      · rw [dif_pos hp1]
        have hsub1 : (p &&& cnot32 (TASK_NUM_TO_BIT (clz32 p))) &&&
            (s.pending &&& cnot32 (TASK_NUM_TO_BIT (clz32 p))) =
            p &&& cnot32 (TASK_NUM_TO_BIT (clz32 p)) := by
          apply and_eq_left_iff.mpr
          intro i hi
          rw [Nat.testBit_and, Bool.and_eq_true] at hi
          obtain ⟨hip, hic⟩ := hi
          rw [Nat.testBit_and, hm_imp i hip, hic]
          rfl
        obtain ⟨ihn, ihr, ihe, ihc, ihpb, ihrb, ihbits⟩ :=
          IH _ hp1lt
            { s with tasks := setWakeup s.tasks (clz32 p) OS_NOSLEEP,
                     pending := s.pending &&& cnot32 (TASK_NUM_TO_BIT (clz32 p)),
                     ready := s.ready ||| TASK_NUM_TO_BIT (clz32 p) }
            hp1 hp1_32 (and_lt_U32_left hsp) (or_lt_U32 hsr (bit_lt_U32 _)) hsub1
        refine ⟨ihn, ihr, ihe, ihc, ihpb, ihrb, ?_⟩
        intro t ht
        by_cases htk : t = clz32 p
        · obtain ⟨e1, e2, e3⟩ := (ihbits t ht).2 (by
            rw [hmembp1 t ht, htk]
            simp)
          have g1 : memb (s.pending &&& cnot32 (TASK_NUM_TO_BIT (clz32 p))) t
              = false := by
            rw [memb_clear hk ht, htk]
            simp
          have g2 : memb (s.ready ||| TASK_NUM_TO_BIT (clz32 p)) t = true := by
            rw [memb_or, memb_bit hk ht, htk]
            simp
          have g3 : (setWakeup s.tasks (clz32 p) OS_NOSLEEP t).wakeup_time
              = OS_NOSLEEP := by
            simp [setWakeup, htk]
          constructor
          · intro _
            constructor
            · intro _
              refine ⟨?_, ?_, ?_⟩
              · rw [e1]
                exact g1
              · rw [e2]
                exact g2
              · rw [e3]
                exact g3
            · intro hngt
              rw [htk] at hngt
              exact absurd hwake hngt
          · intro hmf
            rw [htk, hmemk] at hmf
            exact absurd hmf (by simp)
        · have hTt : setWakeup s.tasks (clz32 p) OS_NOSLEEP t = s.tasks t := by
            simp [setWakeup, htk]
          have hpend1 : memb (s.pending &&& cnot32 (TASK_NUM_TO_BIT (clz32 p))) t =
              memb s.pending t := by
            rw [memb_clear hk ht]
            simp [htk]
          have hready1 : memb (s.ready ||| TASK_NUM_TO_BIT (clz32 p)) t =
              memb s.ready t := by
            rw [memb_or, memb_bit hk ht]
            simp [htk]
          constructor
          · intro hmt
            have hmt1 : memb (p &&& cnot32 (TASK_NUM_TO_BIT (clz32 p))) t = true := by
              rw [hmembp1 t ht, hmt]
              simp [htk]
            obtain ⟨hcase1, hcase2⟩ := (ihbits t ht).1 hmt1
            constructor
            · intro hgt
              obtain ⟨f1, f2, f3⟩ := hcase1 (by
                show ticks > (setWakeup s.tasks (clz32 p) OS_NOSLEEP t).wakeup_time
                rw [hTt]
                exact hgt)
              exact ⟨f1, f2, f3⟩
            · intro hngt
              obtain ⟨f1, f2, f3⟩ := hcase2 (by
                show ¬ ticks > (setWakeup s.tasks (clz32 p) OS_NOSLEEP t).wakeup_time
                rw [hTt]
                exact hngt)
              refine ⟨?_, ?_, ?_⟩
              · rw [f1]
                exact hpend1
              · rw [f2]
                exact hready1
              · rw [f3]
                exact hTt
          · intro hmf
            have hmf1 : memb (p &&& cnot32 (TASK_NUM_TO_BIT (clz32 p))) t = false := by
              rw [hmembp1 t ht, hmf]
              simp
            obtain ⟨f1, f2, f3⟩ := (ihbits t ht).2 hmf1
            refine ⟨?_, ?_, ?_⟩
            · rw [f1]
              exact hpend1
            · rw [f2]
              exact hready1
            · rw [f3]
              exact hTt
      · rw [dif_neg hp1]
        have hp1z : p &&& cnot32 (TASK_NUM_TO_BIT (clz32 p)) = 0 := by
          by_contra hc
          exact hp1 hc
        refine ⟨rfl, rfl, rfl, rfl, and_lt_U32_left hsp,
          or_lt_U32 hsr (bit_lt_U32 _), ?_⟩
        intro t ht
        by_cases htk : t = clz32 p
        · constructor
          · intro _
            constructor
            · intro _
              refine ⟨?_, ?_, ?_⟩
              · show memb (s.pending &&& cnot32 (TASK_NUM_TO_BIT (clz32 p))) t = false
                rw [memb_clear hk ht, htk]
                simp
              · show memb (s.ready ||| TASK_NUM_TO_BIT (clz32 p)) t = true
                rw [memb_or, memb_bit hk ht, htk]
                simp
              · show (setWakeup s.tasks (clz32 p) OS_NOSLEEP t).wakeup_time = OS_NOSLEEP
                simp [setWakeup, htk]
            · intro hngt
              rw [htk] at hngt
              exact absurd hwake hngt
          · intro hmf
            rw [htk] at hmf
            rw [hmemk] at hmf
            exact absurd hmf (by simp)
        · have hmf : memb p t = false := by
            have h1 : memb (p &&& cnot32 (TASK_NUM_TO_BIT (clz32 p))) t = false := by
              rw [hp1z]
              exact memb_zero t
            rw [hmembp1 t ht] at h1
            rcases hmp : memb p t with _ | _
            · rfl
            · rw [hmp] at h1
              simp [htk] at h1
          constructor
          · intro hmt
            rw [hmt] at hmf
            exact absurd hmf (by simp)
          · intro _
            refine ⟨?_, ?_, ?_⟩
            · show memb (s.pending &&& cnot32 (TASK_NUM_TO_BIT (clz32 p))) t =
                memb s.pending t
              rw [memb_clear hk ht]
              simp [htk]
            · show memb (s.ready ||| TASK_NUM_TO_BIT (clz32 p)) t = memb s.ready t
              rw [memb_or, memb_bit hk ht]
              simp [htk]
            · show setWakeup s.tasks (clz32 p) OS_NOSLEEP t = s.tasks t
              simp [setWakeup, htk]
    · rw [if_neg hwake]
      by_cases hp1 : p &&& cnot32 (TASK_NUM_TO_BIT (clz32 p)) ≠ 0
      · rw [dif_pos hp1]
        have hsub1 : (p &&& cnot32 (TASK_NUM_TO_BIT (clz32 p))) &&& s.pending =
            p &&& cnot32 (TASK_NUM_TO_BIT (clz32 p)) := by
          apply and_eq_left_iff.mpr
          intro i hi
          rw [Nat.testBit_and, Bool.and_eq_true] at hi
          exact hm_imp i hi.1
        obtain ⟨ihn, ihr, ihe, ihc, ihpb, ihrb, ihbits⟩ :=
          IH _ hp1lt s hp1 hp1_32 hsp hsr hsub1
        refine ⟨ihn, ihr, ihe, ihc, ihpb, ihrb, ?_⟩
        intro t ht
        by_cases htk : t = clz32 p
        · obtain ⟨e1, e2, e3⟩ := (ihbits t ht).2 (by
            rw [hmembp1 t ht, htk]
            simp)
          constructor
          · intro _
            constructor
            · intro hgt
              rw [htk] at hgt
              exact absurd hgt hwake
            · intro _
              exact ⟨e1, e2, e3⟩
          · intro hmf
            rw [htk, hmemk] at hmf
            exact absurd hmf (by simp)
        · constructor
          · intro hmt
            have hmt1 : memb (p &&& cnot32 (TASK_NUM_TO_BIT (clz32 p))) t = true := by
              rw [hmembp1 t ht, hmt]
              simp [htk]
            exact (ihbits t ht).1 hmt1
          · intro hmf
            have hmf1 : memb (p &&& cnot32 (TASK_NUM_TO_BIT (clz32 p))) t = false := by
              rw [hmembp1 t ht, hmf]
              simp
            exact (ihbits t ht).2 hmf1
      · rw [dif_neg hp1]
        have hp1z : p &&& cnot32 (TASK_NUM_TO_BIT (clz32 p)) = 0 := by
          by_contra hc
          exact hp1 hc
        refine ⟨rfl, rfl, rfl, rfl, hsp, hsr, ?_⟩
        intro t ht
        by_cases htk : t = clz32 p
        · constructor
          · intro _
            constructor
            · intro hgt
              rw [htk] at hgt
              exact absurd hgt hwake
            · intro _
              exact ⟨rfl, rfl, rfl⟩
          · intro hmf
            rw [htk, hmemk] at hmf
            exact absurd hmf (by simp)
        · constructor
          · intro hmt
            have h1 : memb (p &&& cnot32 (TASK_NUM_TO_BIT (clz32 p))) t = false := by
              rw [hp1z]
              exact memb_zero t
            rw [hmembp1 t ht, hmt] at h1
            simp [htk] at h1
          · intro _
            exact ⟨rfl, rfl, rfl⟩

/-! ## Structural facts about yield and sleep -/

theorem reclaimYield_tasks (s : SchedState) : (reclaimYield s).tasks = s.tasks := by
  unfold reclaimYield
  split
  · split <;> rfl
  · rfl

theorem yield_tasks (s : SchedState) : (yield s).tasks = s.tasks := by
  have h1 := reclaimYield_tasks s
  unfold yield
  split
  · exact h1
  · split
    · exact h1
    · exact h1

theorem wakeupVal_zero {tk : Nat} (h : tk < U64) : wakeupVal tk 0 = tk := by
  unfold wakeupVal toUint64
  norm_num
  exact Nat.mod_eq_of_lt h

/-! ## Claim theorems -/

/-- C5: in the wake scan a PENDING task is moved to READY (wakeup_time reset
to the sentinel, PENDING bit cleared, READY bit set) exactly when
`now > wakeup_time` with strict comparison; a task whose wakeup_time equals
`now` stays PENDING unchanged.  Moreover sleep(0) sets
wakeup_time = TICK_get() + 0 = now, so the wake predicate fails at the
current tick and the caller blocks for at least one tick. -/
theorem wake_scan_strict (ticks : Nat) (s : SchedState)
    (hp0 : s.pending ≠ 0) (hp32 : s.pending < U32) (hr32 : s.ready < U32) :
    (∀ t, t < 32 → memb s.pending t = true →
      (ticks > (s.tasks t).wakeup_time →
        memb (wakeScan ticks s s.pending).pending t = false ∧
        memb (wakeScan ticks s s.pending).ready t = true ∧
        ((wakeScan ticks s s.pending).tasks t).wakeup_time = OS_NOSLEEP) ∧
      (¬ ticks > (s.tasks t).wakeup_time →
        memb (wakeScan ticks s s.pending).pending t = true ∧
        memb (wakeScan ticks s s.pending).ready t = memb s.ready t ∧
        (wakeScan ticks s s.pending).tasks t = s.tasks t)) ∧
    (∀ t, t < 32 → memb s.pending t = false →
      memb (wakeScan ticks s s.pending).pending t = false ∧
      memb (wakeScan ticks s s.pending).ready t = memb s.ready t ∧
      (wakeScan ticks s s.pending).tasks t = s.tasks t) ∧
    (∀ tk : Nat, tk < U64 → wakeupVal tk 0 = tk ∧ ¬ tk > wakeupVal tk 0) ∧
    (∀ (tk : Nat) (s2 : SchedState), tk < U64 →
      ((sleep tk 0 s2).tasks (clz32 s2.running)).wakeup_time = tk) := by
  obtain ⟨_, _, _, _, _, _, hbits⟩ :=
    wakeScan_spec ticks s.pending s hp0 hp32 hp32 hr32 (Nat.and_self s.pending)
  refine ⟨?_, ?_, ?_, ?_⟩
  · intro t ht hmt
    obtain ⟨hcase1, hcase2⟩ := (hbits t ht).1 hmt
    refine ⟨hcase1, ?_⟩
    intro hngt
    obtain ⟨f1, f2, f3⟩ := hcase2 hngt
    rw [f1]
    exact ⟨hmt, f2, f3⟩
  · intro t ht hmf
    obtain ⟨f1, f2, f3⟩ := (hbits t ht).2 hmf
    rw [f1]
    exact ⟨hmf, f2, f3⟩
  · intro tk htk
    refine ⟨wakeupVal_zero htk, ?_⟩
    rw [wakeupVal_zero htk]
    omega
  · intro tk s2 htk
    unfold sleep
    rw [yield_tasks]
    show (setWakeup s2.tasks (clz32 s2.running) (wakeupVal tk 0)
        (clz32 s2.running)).wakeup_time = tk
    rw [wakeupVal_zero htk]
    simp [setWakeup]


/-- Witness for C5: at tick 10 > 5 the pending task 1 is woken; sleep(0) at
tick 7 sets wakeup_time 7, and 7 > 7 fails. -/
theorem wake_scan_strict_witness :
    memb (wakeScan 10 sWake sWake.pending).pending 1 = false ∧
    memb (wakeScan 10 sWake sWake.pending).ready 1 = true ∧
    ((wakeScan 10 sWake sWake.pending).tasks 1).wakeup_time = OS_NOSLEEP ∧
    wakeupVal 7 0 = 7 ∧ ¬ (7 : Nat) > wakeupVal 7 0 := by
  have h := wake_scan_strict 10 sWake (by decide) (by decide) (by decide)
  obtain ⟨f1, f2, f3⟩ := (h.1 1 (by decide) (by decide)).1 (by decide)
  obtain ⟨g1, g2⟩ := h.2.2.1 7 (by decide)
  exact ⟨f1, f2, f3, g1, g2⟩

/-- C2: in schedule's preemption decision (reached only once the wake scan
has moved a task to READY, so READY is non-empty), with `curr` the single
RUNNING task and `p = priority(curr)`, the selected task is the
lowest-numbered READY task of priority at least `p` when one exists and
`curr` otherwise; when `selected = curr` the decision changes nothing, and
when `selected ≠ curr` it sets NEXT to the singleton bit of `selected`,
clears that READY bit and triggers the context-switch interrupt. -/
theorem schedule_preemption_choice (s : SchedState) (curr : Nat)
    (hcur : curr < 32) (hrun : s.running = TASK_NUM_TO_BIT curr)
    (hr0 : s.ready ≠ 0) (hr32 : s.ready < U32) :
    ((∀ t, t < 32 → memb s.ready t = true →
        (s.tasks t).prio < (s.tasks curr).prio) →
      scanCandidates s.tasks (s.tasks curr).prio s.ready curr = curr ∧
      preemptDecision s = s) ∧
    ((∃ t, t < 32 ∧ memb s.ready t = true ∧
        (s.tasks curr).prio ≤ (s.tasks t).prio) →
      scanCandidates s.tasks (s.tasks curr).prio s.ready curr < 32 ∧
      memb s.ready (scanCandidates s.tasks (s.tasks curr).prio s.ready curr)
        = true ∧
      (s.tasks curr).prio ≤
        (s.tasks (scanCandidates s.tasks (s.tasks curr).prio s.ready curr)).prio ∧
      (∀ u, u < scanCandidates s.tasks (s.tasks curr).prio s.ready curr →
        memb s.ready u = true → (s.tasks u).prio < (s.tasks curr).prio) ∧
      (scanCandidates s.tasks (s.tasks curr).prio s.ready curr ≠ curr →
        preemptDecision s =
          { s with
              next := TASK_NUM_TO_BIT (scanCandidates s.tasks (s.tasks curr).prio s.ready curr),
              ready := s.ready &&& cnot32 (TASK_NUM_TO_BIT (scanCandidates s.tasks (s.tasks curr).prio s.ready curr)),
              pendsvCount := s.pendsvCount + 1 }) ∧
      (scanCandidates s.tasks (s.tasks curr).prio s.ready curr = curr →
        preemptDecision s = s)) := by
  have hclz : clz32 s.running = curr := by
    rw [hrun]
    exact clz32_bit hcur
  have hpre : preemptDecision s =
      if scanCandidates s.tasks (s.tasks (clz32 s.running)).prio s.ready
          (clz32 s.running) ≠ clz32 s.running then
        { s with
            next := TASK_NUM_TO_BIT (scanCandidates s.tasks (s.tasks (clz32 s.running)).prio s.ready (clz32 s.running)),
            ready := s.ready &&& cnot32 (TASK_NUM_TO_BIT (scanCandidates s.tasks (s.tasks (clz32 s.running)).prio s.ready (clz32 s.running))),
            pendsvCount := s.pendsvCount + 1 }
      else s := rfl
  rw [hclz] at hpre
  obtain ⟨sp1, sp2, sp3⟩ :=
    scanCandidates_spec s.tasks (s.tasks curr).prio curr s.ready hr0 hr32
  constructor
  · intro hall
    have hd := sp1 hall
    refine ⟨hd, ?_⟩
    rw [hpre, if_neg (fun hc => hc hd)]
  · intro hex
    obtain ⟨h32s, hmem, hpr, hmin⟩ := sp2 hex
    refine ⟨h32s, hmem, hpr, hmin, ?_, ?_⟩
    · intro hne
      rw [hpre, if_pos hne]
    · intro heq
      rw [hpre, if_neg (fun hc => hc heq)]


/-- Witness for C2: on `sChoice` an equal-priority candidate (task 1)
exists, and the scan selects a READY task of no lower priority with all
lower-numbered READY tasks of lower priority. -/
theorem schedule_preemption_choice_witness :
    memb sChoice.ready
      (scanCandidates sChoice.tasks (sChoice.tasks 0).prio sChoice.ready 0)
      = true ∧
    (sChoice.tasks 0).prio ≤ (sChoice.tasks
      (scanCandidates sChoice.tasks (sChoice.tasks 0).prio sChoice.ready 0)).prio := by
  have h := (schedule_preemption_choice sChoice 0 (by decide) rfl (by decide)
    (by decide)).2 ⟨1, by decide, by decide, by decide⟩
  exact ⟨h.2.1, h.2.2.1⟩

/-- C6: in yield, when READY is non-empty but no READY task has priority at
least the caller's: if the caller is not sleeping (wakeup_time is the
sentinel), yield returns leaving the whole scheduler state unchanged;
otherwise the lowest-numbered READY task (possibly of strictly lower
priority) is chosen, made the singleton NEXT, removed from READY, and the
context-switch interrupt is triggered. -/
theorem yield_no_equal_priority_candidate (s : SchedState) (curr : Nat)
    (hej : s.ejected = 0) (hcur : curr < 32)
    (hrun : s.running = TASK_NUM_TO_BIT curr)
    (hr0 : s.ready ≠ 0) (hr32 : s.ready < U32)
    (hnone : ∀ t, t < 32 → memb s.ready t = true →
      (s.tasks t).prio < (s.tasks curr).prio) :
    ((s.tasks curr).wakeup_time = OS_NOSLEEP → yield s = s) ∧
    ((s.tasks curr).wakeup_time ≠ OS_NOSLEEP →
      memb s.ready (clz32 s.ready) = true ∧
      (∀ u, u < clz32 s.ready → memb s.ready u = false) ∧
      (s.tasks (clz32 s.ready)).prio < (s.tasks curr).prio ∧
      yield s =
        { s with
            next := TASK_NUM_TO_BIT (clz32 s.ready),
            ready := s.ready &&& cnot32 (TASK_NUM_TO_BIT (clz32 s.ready)),
            pendsvCount := s.pendsvCount + 1 }) := by
  have hrecl : reclaimYield s = s := by
    unfold reclaimYield
    rw [if_neg (fun hc => hc hej)]
  have hclz : clz32 s.running = curr := by
    rw [hrun]
    exact clz32_bit hcur
  obtain ⟨sp1, sp2, sp3⟩ :=
    scanCandidates_spec s.tasks (s.tasks curr).prio curr s.ready hr0 hr32
  have hscan : scanCandidates s.tasks (s.tasks curr).prio s.ready curr = curr :=
    sp1 hnone
  have hmemr : memb s.ready (clz32 s.ready) = true := memb_clz32 hr0 hr32
  have hbel : ∀ u, u < clz32 s.ready → memb s.ready u = false :=
    memb_below_clz32 hr0 hr32
  have hclzlt : clz32 s.ready < 32 := clz32_lt hr0 hr32
  have hprionr : (s.tasks (clz32 s.ready)).prio < (s.tasks curr).prio :=
    hnone _ hclzlt hmemr
  have hscan2 : scanCandidates s.tasks (s.tasks (clz32 s.running)).prio s.ready
      (clz32 s.running) = clz32 s.running := by
    rw [hclz]
    exact hscan
  have hynext : yieldNext s = clz32 s.ready := by
    unfold yieldNext
    rw [if_pos hscan2]
  have hyld : yield s =
      (if s.ready = 0 then s
       else if scanCandidates s.tasks (s.tasks (clz32 s.running)).prio s.ready
            (clz32 s.running) = clz32 s.running ∧
          (s.tasks (clz32 s.running)).wakeup_time = OS_NOSLEEP then s
       else
        { s with
            next := TASK_NUM_TO_BIT (yieldNext s),
            ready := s.ready &&& cnot32 (TASK_NUM_TO_BIT (yieldNext s)),
            pendsvCount := s.pendsvCount + 1 }) := by
    unfold yield
    rw [hrecl]
  rw [if_neg hr0] at hyld
  constructor
  · intro hws
    rw [hyld, if_pos ⟨hscan2, by rw [hclz]; exact hws⟩]
  · intro hws
    refine ⟨hmemr, hbel, hprionr, ?_⟩
    rw [hyld, if_neg (fun hc => hws (by rw [← hclz]; exact hc.2)), hynext]


/-- Witness for C6: yield from the sleeping task 0 hands the CPU to the
strictly lower-priority idle task, the lowest-numbered READY task. -/
theorem yield_no_equal_priority_candidate_witness :
    memb sYield.ready (clz32 sYield.ready) = true ∧
    (sYield.tasks (clz32 sYield.ready)).prio < (sYield.tasks 0).prio ∧
    yield sYield =
      { sYield with
          next := TASK_NUM_TO_BIT (clz32 sYield.ready),
          ready := sYield.ready &&& cnot32 (TASK_NUM_TO_BIT (clz32 sYield.ready)),
          pendsvCount := sYield.pendsvCount + 1 } := by
  have h := (yield_no_equal_priority_candidate sYield 0 rfl (by decide) rfl
    (by decide) (by decide) (by decide)).2 (by decide)
  exact ⟨h.1, h.2.2.1, h.2.2.2⟩


theorem bool_sum_one_all {a b c d : Bool}
    (h : a.toNat + b.toNat + c.toNat + d.toNat = 1) :
    (a = true → b = false ∧ c = false ∧ d = false) ∧
    (b = true → a = false ∧ c = false ∧ d = false) ∧
    (c = true → a = false ∧ b = false ∧ d = false) ∧
    (d = true → a = false ∧ b = false ∧ c = false) := by
  cases a <;> cases b <;> cases c <;> cases d <;> simp_all

theorem reclaim_vecsWF {n : Nat} {s : SchedState} (h : vecsWF n s) :
    vecsWF n (reclaimSchedule s) ∧ (reclaimSchedule s).next = s.next ∧
    (reclaimSchedule s).running = s.running ∧
    (reclaimSchedule s).tasks = s.tasks ∧
    (reclaimSchedule s).pendsvCount = s.pendsvCount := by
  obtain ⟨hn, hnext, hr32, hp32, hru32, he32, hcnt⟩ := h
  by_cases hej : s.ejected ≠ 0
  · unfold reclaimSchedule
    rw [if_pos hej]
    by_cases hw : (s.tasks (clz32 s.ejected)).wakeup_time ≠ OS_NOSLEEP
    · rw [if_pos hw]
      refine ⟨⟨hn, hnext, hr32, or_lt_U32 hp32 he32, hru32, by
        show (0 : Nat) < U32
        unfold U32
        omega, ?_⟩, rfl, rfl, rfl, rfl⟩
      intro t ht
      have hc := hcnt t ht
      constructor
      · intro htn
        have h1 := hc.1 htn
        show (memb s.ready t).toNat + (memb (s.pending ||| s.ejected) t).toNat +
          (memb s.running t).toNat + (memb 0 t).toNat = 1
        rw [memb_or, memb_zero]
        unfold count4 at h1
        cases hrd : memb s.ready t <;> cases hpb : memb s.pending t <;>
          cases hrn : memb s.running t <;> cases heb : memb s.ejected t <;>
          rw [hrd, hpb, hrn, heb] at h1 <;> simp_all
      · intro htn
        have h1 := hc.2 htn
        show (memb s.ready t).toNat + (memb (s.pending ||| s.ejected) t).toNat +
          (memb s.running t).toNat + (memb 0 t).toNat = 0
        rw [memb_or, memb_zero]
        unfold count4 at h1
        cases hrd : memb s.ready t <;> cases hpb : memb s.pending t <;>
          cases hrn : memb s.running t <;> cases heb : memb s.ejected t <;>
          rw [hrd, hpb, hrn, heb] at h1 <;> simp_all
    · rw [if_neg hw]
      refine ⟨⟨hn, hnext, or_lt_U32 hr32 he32, hp32, hru32, by
        show (0 : Nat) < U32
        unfold U32
        omega, ?_⟩, rfl, rfl, rfl, rfl⟩
      intro t ht
      have hc := hcnt t ht
      constructor
      · intro htn
        have h1 := hc.1 htn
        show (memb (s.ready ||| s.ejected) t).toNat + (memb s.pending t).toNat +
          (memb s.running t).toNat + (memb 0 t).toNat = 1
        rw [memb_or, memb_zero]
        unfold count4 at h1
        cases hrd : memb s.ready t <;> cases hpb : memb s.pending t <;>
          cases hrn : memb s.running t <;> cases heb : memb s.ejected t <;>
          rw [hrd, hpb, hrn, heb] at h1 <;> simp_all
      · intro htn
        have h1 := hc.2 htn
        show (memb (s.ready ||| s.ejected) t).toNat + (memb s.pending t).toNat +
          (memb s.running t).toNat + (memb 0 t).toNat = 0
        rw [memb_or, memb_zero]
        unfold count4 at h1
        cases hrd : memb s.ready t <;> cases hpb : memb s.pending t <;>
          cases hrn : memb s.running t <;> cases heb : memb s.ejected t <;>
          rw [hrd, hpb, hrn, heb] at h1 <;> simp_all
  · unfold reclaimSchedule
    rw [if_neg hej]
    exact ⟨⟨hn, hnext, hr32, hp32, hru32, he32, hcnt⟩, rfl, rfl, rfl, rfl⟩

theorem wakeScan_vecsWF {n ticks : Nat} {s : SchedState} (h : vecsWF n s)
    (hp0 : s.pending ≠ 0) :
    vecsWF n (wakeScan ticks s s.pending) ∧
    (wakeScan ticks s s.pending).next = s.next ∧
    (wakeScan ticks s s.pending).running = s.running ∧
    (wakeScan ticks s s.pending).pendsvCount = s.pendsvCount := by
  obtain ⟨hn, hnext, hr32, hp32, hru32, he32, hcnt⟩ := h
  obtain ⟨sn, srun, sej, sc, spb, srb, sbits⟩ :=
    wakeScan_spec ticks s.pending s hp0 hp32 hp32 hr32 (Nat.and_self s.pending)
  refine ⟨⟨hn, by rw [sn]; exact hnext, srb, spb, by rw [srun]; exact hru32,
    by rw [sej]; exact he32, ?_⟩, sn, srun, sc⟩
  intro t ht
  have hc := hcnt t ht
  have hrune : memb (wakeScan ticks s s.pending).running t = memb s.running t := by
    rw [srun]
  have heje : memb (wakeScan ticks s s.pending).ejected t = memb s.ejected t := by
    rw [sej]
  rcases hmp : memb s.pending t with _ | _
  · obtain ⟨f1, f2, f3⟩ := (sbits t ht).2 hmp
    constructor
    · intro htn
      have h1 := hc.1 htn
      unfold count4 at h1 ⊢
      rw [f1, f2, hrune, heje]
      exact h1
    · intro htn
      have h1 := hc.2 htn
      unfold count4 at h1 ⊢
      rw [f1, f2, hrune, heje]
      exact h1
  · obtain ⟨hcase1, hcase2⟩ := (sbits t ht).1 hmp
    by_cases hgt : ticks > (s.tasks t).wakeup_time
    · obtain ⟨f1, f2, f3⟩ := hcase1 hgt
      constructor
      · intro htn
        have h1 := hc.1 htn
        unfold count4 at h1 ⊢
        rw [f1, f2, hrune, heje]
        obtain ⟨g1, g2, g3⟩ := (bool_sum_one_all (by
          omega : (memb s.pending t).toNat + (memb s.ready t).toNat +
            (memb s.running t).toNat + (memb s.ejected t).toNat = 1)).1 hmp
        rw [g2, g3]
        rfl
      · intro htn
        have h1 := hc.2 htn
        unfold count4 at h1
        rw [hmp] at h1
        simp at h1
    · obtain ⟨f1, f2, f3⟩ := hcase2 hgt
      constructor
      · intro htn
        have h1 := hc.1 htn
        unfold count4 at h1 ⊢
        rw [f1, f2, hrune, heje]
        exact h1
      · intro htn
        have h1 := hc.2 htn
        unfold count4 at h1 ⊢
        rw [f1, f2, hrune, heje]
        exact h1

/-- Moving a READY task `k` into the (previously empty) NEXT overlay keeps
every task in exactly one of the five sets. -/
theorem count5_select {s : SchedState} {n k : Nat} (hk : k < 32)
    (hmem : memb s.ready k = true)
    (hcnt : ∀ t, t < 32 → (t < n → count4 s t = 1) ∧ (n ≤ t → count4 s t = 0)) :
    ∀ t, t < 32 → t < n →
      count5 { s with
          next := TASK_NUM_TO_BIT k,
          ready := s.ready &&& cnot32 (TASK_NUM_TO_BIT k),
          pendsvCount := s.pendsvCount + 1 } t = 1 := by
  intro t ht htn
  have h1 := (hcnt t ht).1 htn
  unfold count5 count4 at h1 ⊢
  show (memb (s.ready &&& cnot32 (TASK_NUM_TO_BIT k)) t).toNat +
      (memb s.pending t).toNat + (memb s.running t).toNat +
      (memb s.ejected t).toNat + (memb (TASK_NUM_TO_BIT k) t).toNat = 1
  rw [memb_clear hk ht, memb_bit hk ht]
  by_cases htk : t = k
  · subst htk
    obtain ⟨g1, g2, g3⟩ := (bool_sum_one_all h1).1 hmem
    rw [hmem, g1, g2, g3]
    simp
  · rw [decide_eq_false htk]
    cases hrd : memb s.ready t <;> rw [hrd] at h1 <;> simp_all

theorem preempt_counts {n : Nat} {s : SchedState} (hwf : vecsWF n s)
    (hr0 : s.ready ≠ 0) :
    ∀ t, t < 32 → t < n → count5 (preemptDecision s) t = 1 := by
  obtain ⟨hn, hnext, hr32, hp32, hru32, he32, hcnt⟩ := hwf
  intro t ht htn
  by_cases hsel : scanCandidates s.tasks (s.tasks (clz32 s.running)).prio s.ready
      (clz32 s.running) = clz32 s.running
  · unfold preemptDecision
    rw [if_neg (fun hc => hc hsel)]
    unfold count5
    rw [hnext, memb_zero, (hcnt t ht).1 htn]
    rfl
  · obtain ⟨sp1, sp2, sp3⟩ := scanCandidates_spec s.tasks
      (s.tasks (clz32 s.running)).prio (clz32 s.running) s.ready hr0 hr32
    rcases sp3 with hd | ⟨hmem, h32s⟩
    · exact absurd hd hsel
    · unfold preemptDecision
      rw [if_pos hsel]
      exact count5_select h32s hmem hcnt t ht htn

/-- C3 amended: from a steady state (NEXT empty, every task in exactly one
of the four sets), after yield or schedule every task is in exactly one of
the FIVE sets READY, PENDING, RUNNING, EJECTED, NEXT; in particular at the
point where NEXT has been set and the selected task's READY bit cleared,
that task lives in NEXT alone, not in any of the four. -/
theorem partition_with_next_overlay (n : Nat) (s : SchedState)
    (h : vecsWF n s) :
    (∀ t, t < 32 → t < n → count5 (yield s) t = 1) ∧
    (∀ ticks t, t < 32 → t < n → count5 (schedule ticks s) t = 1) := by
  have hrc := reclaim_vecsWF h
  obtain ⟨hwf1, hnx1, hrun1, htk1, hpc1⟩ := hrc
  have hwf1c := hwf1
  obtain ⟨hn1, hnext1, hr321, hp321, hru321, he321, hcnt1⟩ := hwf1c
  have he : reclaimSchedule s = reclaimYield s := rfl
  constructor
  · intro t ht htn
    unfold yield
    rw [← he]
    by_cases hrz : (reclaimSchedule s).ready = 0
    · rw [if_pos hrz]
      unfold count5
      rw [hnext1, memb_zero, (hcnt1 t ht).1 htn]
      rfl
    · rw [if_neg hrz]
      by_cases hsc : scanCandidates (reclaimSchedule s).tasks
          ((reclaimSchedule s).tasks (clz32 (reclaimSchedule s).running)).prio
          (reclaimSchedule s).ready (clz32 (reclaimSchedule s).running)
          = clz32 (reclaimSchedule s).running ∧
          ((reclaimSchedule s).tasks
            (clz32 (reclaimSchedule s).running)).wakeup_time = OS_NOSLEEP
      · rw [if_pos hsc]
        unfold count5
        rw [hnext1, memb_zero, (hcnt1 t ht).1 htn]
        rfl
      · rw [if_neg hsc]
        have hkfacts : memb (reclaimSchedule s).ready
            (yieldNext (reclaimSchedule s)) = true ∧
            yieldNext (reclaimSchedule s) < 32 := by
          unfold yieldNext
          by_cases hsc2 : scanCandidates (reclaimSchedule s).tasks
              ((reclaimSchedule s).tasks
                (clz32 (reclaimSchedule s).running)).prio
              (reclaimSchedule s).ready (clz32 (reclaimSchedule s).running)
              = clz32 (reclaimSchedule s).running
          · rw [if_pos hsc2]
            exact ⟨memb_clz32 hrz hr321, clz32_lt hrz hr321⟩
          · rw [if_neg hsc2]
            obtain ⟨_, _, sp3⟩ := scanCandidates_spec (reclaimSchedule s).tasks
              ((reclaimSchedule s).tasks (clz32 (reclaimSchedule s).running)).prio
              (clz32 (reclaimSchedule s).running) (reclaimSchedule s).ready
              hrz hr321
            rcases sp3 with hd | hgood
            · exact absurd hd hsc2
            · exact ⟨hgood.1, hgood.2⟩
        exact count5_select hkfacts.2 hkfacts.1 hcnt1 t ht htn
  · intro ticks t ht htn
    unfold schedule
    by_cases hpz : (reclaimSchedule s).pending = 0
    · rw [if_pos hpz]
      unfold count5
      rw [hnext1, memb_zero, (hcnt1 t ht).1 htn]
      rfl
    · rw [if_neg hpz]
      obtain ⟨hwfW, hnW, hruW, hpcW⟩ := wakeScan_vecsWF hwf1 hpz
      by_cases hchg : (wakeScan ticks (reclaimSchedule s)
          (reclaimSchedule s).pending).pending ≠ (reclaimSchedule s).pending
      · rw [if_pos hchg]
        have hr0 : (wakeScan ticks (reclaimSchedule s)
            (reclaimSchedule s).pending).ready ≠ 0 := by
          obtain ⟨i, hi⟩ := Nat.ne_implies_bit_diff hchg
          obtain ⟨_, _, _, _, spb2, _, sbits2⟩ :=
            wakeScan_spec ticks (reclaimSchedule s).pending (reclaimSchedule s)
              hpz hp321 hp321 hr321 (Nat.and_self _)
          have hi32 : i < 32 := by
            by_contra hbig
            have hle2 : U32 ≤ 2 ^ i := by
              have e : U32 = 2 ^ 32 := by norm_num [U32]
              rw [e]
              exact Nat.pow_le_pow_right (by omega) (by omega)
            rw [Nat.testBit_lt_two_pow (by omega),
              Nat.testBit_lt_two_pow (by omega)] at hi
            exact hi rfl
          have hii : 31 - (31 - i) = i := by omega
          have hdiff : memb (wakeScan ticks (reclaimSchedule s)
              (reclaimSchedule s).pending).pending (31 - i) ≠
              memb (reclaimSchedule s).pending (31 - i) := by
            unfold memb
            rw [hii]
            exact hi
          rcases hmp : memb (reclaimSchedule s).pending (31 - i) with _ | _
          · obtain ⟨f1, _, _⟩ := (sbits2 (31 - i) (by omega)).2 hmp
            rw [f1, hmp] at hdiff
            exact absurd rfl hdiff
          · obtain ⟨hcase1, hcase2⟩ := (sbits2 (31 - i) (by omega)).1 hmp
            by_cases hgt : ticks > ((reclaimSchedule s).tasks (31 - i)).wakeup_time
            · obtain ⟨_, f2, _⟩ := hcase1 hgt
              exact memb_true_ne_zero f2
            · obtain ⟨f1, _, _⟩ := hcase2 hgt
              rw [f1, hmp] at hdiff
              exact absurd rfl hdiff
        exact preempt_counts hwfW hr0 t ht htn
      · rw [if_neg hchg]
        obtain ⟨hn2, hnext2x, hr322, hp322, hru322, he322, hcnt2⟩ := hwfW
        have hnext2 : (wakeScan ticks (reclaimSchedule s)
            (reclaimSchedule s).pending).next = 0 := by
          rw [hnW]
          exact hnext1
        unfold count5
        rw [hnext2, memb_zero, (hcnt2 t ht).1 htn]
        rfl

/-- C3 counterexample: on the sample-app state where task 0 runs and tasks
1 and 2 are READY, the four-set partition holds before yield, but after
yield has set NEXT = {task 1} and cleared task 1's READY bit (the
context-switch handler not having run yet) task 1 is in none of
{READY, PENDING, RUNNING, EJECTED}: the claimed partition fails. -/
theorem partition4_fails_after_yield :
    partitioned4 3 sChoice ∧ ¬ partitioned4 3 (yield sChoice) := by
  have hrecl : reclaimYield sChoice = sChoice := rfl
  have hscan : scanCandidates sChoice.tasks
      (sChoice.tasks (clz32 sChoice.running)).prio sChoice.ready
      (clz32 sChoice.running) = 1 := by
    rw [scanCandidates_step, if_pos (by decide)]
    decide
  have hyn : yieldNext sChoice = 1 := by
    unfold yieldNext
    rw [hscan, if_neg (by decide)]
  have hy : yield sChoice =
      { sChoice with
          next := TASK_NUM_TO_BIT 1,
          ready := sChoice.ready &&& cnot32 (TASK_NUM_TO_BIT 1),
          pendsvCount := sChoice.pendsvCount + 1 } := by
    unfold yield
    rw [hrecl, if_neg (by decide : ¬ sChoice.ready = 0),
      if_neg (by rw [hscan]; decide), hyn]
  constructor
  · unfold partitioned4
    decide
  · intro hcontra
    have h1 := hcontra 1 (by omega)
    rw [hy] at h1
    revert h1
    decide

/-- Witness for C3 amended: on the same state the five-set count is one for
the selected task after both yield and schedule. -/
theorem partition_with_next_overlay_witness :
    count5 (yield sChoice) 1 = 1 ∧ count5 (schedule 0 sChoice) 1 = 1 := by
  have h := partition_with_next_overlay 3 sChoice (by decide)
  exact ⟨h.1 1 (by decide) (by decide), h.2 0 1 (by decide) (by decide)⟩

/-- C10 counterexample: the claim asserts that for every negative ms the
computed wakeup_time is `ticks - |ms|`, strictly below the current tick
count.  At tick 0, sleep(-1) computes wakeup_time = 2^64 - 1, which is the
OS_NOSLEEP sentinel itself and not below the current tick count, so the
caller is treated as not sleeping at all rather than woken immediately. -/
theorem sleep_negative_cx :
    wakeupVal 0 (-1) = OS_NOSLEEP ∧ ¬ wakeupVal 0 (-1) < 0 := by
  constructor
  · decide
  · omega

/-- C10 amended: for negative ms the conversion to uint64_t and the modular
addition give wakeup_time = (ticks - |ms|) mod 2^64; provided |ms| does not
exceed the current tick count this equals ticks - |ms|, a value strictly
below the current tick count, so the strict wake predicate holds at once and
the caller is promoted back to READY by the first wake scan at or after its
ejection. -/
theorem sleep_negative_wraps (ticks : Nat) (ms : Int) (h64 : ticks < U64)
    (hneg : ms < 0) (hrange : -(2 ^ 31) ≤ ms) (hle : ms.natAbs ≤ ticks) :
    wakeupVal ticks ms = ticks - ms.natAbs ∧
    wakeupVal ticks ms < ticks ∧
    (∀ (now : Nat) (s : SchedState), ticks ≤ now → s.pending ≠ 0 →
      s.pending < U32 → s.ready < U32 →
      ∀ t, t < 32 → memb s.pending t = true →
        (s.tasks t).wakeup_time = wakeupVal ticks ms →
        memb (wakeScan now s s.pending).pending t = false ∧
        memb (wakeScan now s s.pending).ready t = true ∧
        ((wakeScan now s s.pending).tasks t).wakeup_time = OS_NOSLEEP) := by
  have habs : toUint64 ms = U64 - ms.natAbs := by
    unfold toUint64
    have h1 : ms % (18446744073709551616 : Int) = ms + 18446744073709551616 := by
      have h2 : (0 : Int) ≤ ms + 18446744073709551616 := by omega
      have h3 : ms + 18446744073709551616 < 18446744073709551616 := by omega
      calc ms % (18446744073709551616 : Int)
          = (ms + 18446744073709551616 * 1) % 18446744073709551616 := by
            rw [Int.add_mul_emod_self_left]
      _ = (ms + 18446744073709551616) % 18446744073709551616 := by norm_num
      _ = ms + 18446744073709551616 := Int.emod_eq_of_lt h2 h3
    rw [h1]
    unfold U64
    omega
  have hval : wakeupVal ticks ms = ticks - ms.natAbs := by
    unfold wakeupVal
    rw [habs]
    unfold U64
    have ha1 : 1 ≤ ms.natAbs := by omega
    unfold U64 at h64
    omega
  have hlt : wakeupVal ticks ms < ticks := by
    rw [hval]
    omega
  refine ⟨hval, hlt, ?_⟩
  intro now s hnow hp0 hp32 hr32 t ht hmt hwk
  obtain ⟨_, _, _, _, _, _, hbits⟩ :=
    wakeScan_spec now s.pending s hp0 hp32 hp32 hr32 (Nat.and_self s.pending)
  exact ((hbits t ht).1 hmt).1 (by rw [hwk]; omega)

/-- Witness for C10 amended: sleep(-3) at tick 10 yields wakeup_time 7 < 10,
and a wake scan at tick 10 promotes the pending task 1 at once. -/
theorem sleep_negative_wraps_witness :
    wakeupVal 10 (-3) = 7 ∧ wakeupVal 10 (-3) < 10 := by
  have h := sleep_negative_wraps 10 (-3) (by decide) (by decide) (by decide)
    (by decide)
  exact ⟨h.1, h.2.1⟩

/-- C1: the claim states that task i's initial stack pointer is
`&task_stacks[(i+1)*TASK_STACK_SIZE - 4]` for non-idle tasks (and one word
below the top of the last, smaller idle region), inside the task_stacks
region.  The code disagrees: TASK_NUM_TO_INITIAL_SP computes
`i*TASK_STACK_SIZE - 4`, so with the sample app's three tasks task 0's offset
underflows in uint32_t arithmetic to 2^32 - 4, four bytes below the region,
and the idle task lands at 0x4FC instead of the claimed 0x8FC. -/
theorem task0_initial_sp_underflows :
    TASK_NUM_TO_INITIAL_SP 3 0 = U32 - 4 ∧
    taskStacksBytes 3 = 0x900 ∧
    ¬ TASK_NUM_TO_INITIAL_SP 3 0 < taskStacksBytes 3 ∧
    TASK_NUM_TO_INITIAL_SP 3 0 ≠ (0 + 1) * TASK_STACK_SIZE - 4 ∧
    TASK_NUM_TO_INITIAL_SP 3 2 = 0x4FC ∧
    (3 - 1) * TASK_STACK_SIZE + IDLE_STACK_SIZE - 4 = 0x8FC := by
  refine ⟨by decide, by decide, by decide, by decide, by decide, by decide⟩

/-- C7: scheduler_start rejects the configuration, printing an error and
changing nothing (no sp/wakeup assignment, no state-vector bit, no tick
programming, no dispatch), exactly when the task count (idle included)
exceeds MAX_NUM_TASKS = 32; equivalently, exactly when there are more than
31 user tasks beside the idle task. -/
theorem scheduler_start_caps_tasks (tickRet psvRet : Nat) (tasks0 : List Task) :
    ((scheduler_start tickRet psvRet tasks0).errorPrinted = true ↔
        tasks0.length > MAX_NUM_TASKS) ∧
    (tasks0.length > MAX_NUM_TASKS →
        scheduler_start tickRet psvRet tasks0 =
          { tasks := tasks0, ready := 0, running := 0, errorPrinted := true,
            pendsvInitCalled := false, tickInitCalled := false,
            dispatched := none }) ∧
    (tasks0.length ≤ MAX_NUM_TASKS →
        (scheduler_start tickRet psvRet tasks0).errorPrinted = false ∧
        (scheduler_start tickRet psvRet tasks0).dispatched = some 0) ∧
    (tasks0.length > MAX_NUM_TASKS ↔ tasks0.length - 1 > 31) := by
  by_cases h : tasks0.length > MAX_NUM_TASKS
  · refine ⟨?_, fun _ => scheduler_start_rejected h, ?_, ?_⟩
    · rw [scheduler_start_rejected h]
      simp [h]
    · intro h2
      exact absurd h (by omega)
    · unfold MAX_NUM_TASKS at *
      omega
  · have h2 : tasks0.length ≤ MAX_NUM_TASKS := by omega
    obtain ⟨he, hd, _⟩ := @scheduler_start_accepted tickRet psvRet tasks0 h2
    refine ⟨?_, fun hc => absurd hc h, fun _ => ⟨he, hd⟩, ?_⟩
    · rw [he]
      simp [h]
    · unfold MAX_NUM_TASKS at *
      omega

/-- Witness for C7 at concrete inputs: a 33-entry table is rejected, the
sample app's 3-entry table is accepted and task 0 is dispatched. -/
theorem scheduler_start_caps_tasks_witness :
    (scheduler_start 0 0 (List.replicate 33 (appTask 1))).errorPrinted = true ∧
    (scheduler_start 1 1 appTasksList).dispatched = some 0 := by
  constructor
  · exact (scheduler_start_caps_tasks 0 0 (List.replicate 33 (appTask 1))).1.mpr
      (by decide)
  · exact ((scheduler_start_caps_tasks 1 1 appTasksList).2.2.1 (by decide)).2

/-- C4 counterexample: the claim says that when TICK_init or PendSV_init
reports failure, scheduler_start does not go on to dispatch task 0.  In the
code the return values of both calls are discarded: with an absent system
driver both initializers return SYSTEM_ERROR, yet scheduler_start still
dispatches task 0. -/
theorem dispatch_despite_init_failure :
    TICK_init false true 0 = SYSTEM_ERROR ∧
    PendSV_init false 0 = SYSTEM_ERROR ∧
    (scheduler_start (TICK_init false true 0) (PendSV_init false 0)
        appTasksList).dispatched = some 0 :=
  ⟨rfl, rfl, rfl⟩

/-- C4 amended: scheduler_start ignores the error codes of TICK_init and
PendSV_init; whenever the task-count check passes it dispatches task 0's
entry function, and its whole outcome is independent of those codes. -/
theorem scheduler_start_ignores_init_results (tickRet psvRet : Nat)
    (tasks0 : List Task) (h : tasks0.length ≤ MAX_NUM_TASKS) :
    (scheduler_start tickRet psvRet tasks0).dispatched = some 0 ∧
    scheduler_start tickRet psvRet tasks0 =
      scheduler_start SYSTEM_OK SYSTEM_OK tasks0 :=
  ⟨(@scheduler_start_accepted tickRet psvRet tasks0 h).2.1, rfl⟩

/-- Witness for C4 amended: both initializers failing on the sample app's
table still ends in a dispatch of task 0. -/
theorem scheduler_start_ignores_init_results_witness :
    (scheduler_start SYSTEM_ERROR SYSTEM_ERROR appTasksList).dispatched = some 0 :=
  (scheduler_start_ignores_init_results SYSTEM_ERROR SYSTEM_ERROR appTasksList
    (by decide)).1

/-- C9: each iteration of the do-while scan loops of schedule and yield
clears the bit at position 31 - CountLeadingZeros(mask) of a non-zero 32-bit
working mask, strictly decreasing both the mask and its popcount, and the
derived task number stays below 32 (so every __tasks access is in range);
`scanSteps`, the shared loop skeleton, therefore terminates after exactly
popcount-many iterations.  `wakeScan` and `scanCandidates` recurse on
exactly this `clearTop` step. -/
theorem scan_loops_terminate (m : Nat) (h0 : m ≠ 0) (h32 : m < U32) :
    clz32 m < 32 ∧ clearTop m < m ∧
    popcount32 (clearTop m) + 1 = popcount32 m ∧
    scanSteps m = popcount32 m :=
  ⟨clz32_lt h0 h32, clearTop_lt h0, popcount32_clearTop h0 h32,
    scanSteps_popcount m h32⟩

/-- Witness for C9 at the concrete mask with tasks 0 and 4 set. -/
theorem scan_loops_terminate_witness :
    clz32 0x88000000 < 32 ∧ clearTop 0x88000000 < 0x88000000 ∧
    popcount32 (clearTop 0x88000000) + 1 = popcount32 0x88000000 ∧
    scanSteps 0x88000000 = popcount32 0x88000000 :=
  scan_loops_terminate 0x88000000 (by decide) (by decide)

/-- C8: the reclaim phase of schedule and the reclaim phase of yield are
extensionally equal state transformers; on a state whose EJECTED vector
holds the single task t, both move t to PENDING when its wakeup_time is set
and to READY otherwise, clear EJECTED, and change nothing else. -/
theorem reclaim_phases_equal :
    (∀ s, reclaimSchedule s = reclaimYield s) ∧
    (∀ s t, t < 32 → s.ejected = TASK_NUM_TO_BIT t →
      (reclaimSchedule s).ejected = 0 ∧
      (reclaimSchedule s).next = s.next ∧
      (reclaimSchedule s).running = s.running ∧
      (reclaimSchedule s).tasks = s.tasks ∧
      (reclaimSchedule s).pendsvCount = s.pendsvCount ∧
      ((s.tasks t).wakeup_time ≠ OS_NOSLEEP →
        memb (reclaimSchedule s).pending t = true ∧
        (reclaimSchedule s).ready = s.ready ∧
        ∀ u, u < 32 → u ≠ t →
          memb (reclaimSchedule s).pending u = memb s.pending u) ∧
      ((s.tasks t).wakeup_time = OS_NOSLEEP →
        memb (reclaimSchedule s).ready t = true ∧
        (reclaimSchedule s).pending = s.pending ∧
        ∀ u, u < 32 → u ≠ t →
          memb (reclaimSchedule s).ready u = memb s.ready u)) := by
  constructor
  · intro s
    rfl
  · intro s t ht hej
    have hne : s.ejected ≠ 0 := by
      rw [hej]
      exact bit_ne_zero t
    have hclz : clz32 s.ejected = t := by
      rw [hej]
      exact clz32_bit ht
    by_cases hw : (s.tasks t).wakeup_time ≠ OS_NOSLEEP
    · have hred : reclaimSchedule s =
          { s with pending := s.pending ||| s.ejected, ejected := 0 } := by
        unfold reclaimSchedule
        rw [if_pos hne]
        simp only [hclz]
        rw [if_pos hw]
      rw [hred]
      refine ⟨rfl, rfl, rfl, rfl, rfl, ?_, fun hw2 => absurd hw2 hw⟩
      intro _
      refine ⟨?_, rfl, ?_⟩
      · rw [hej, memb_or, memb_bit ht ht]
        simp
      · intro u hu hut
        rw [hej, memb_or, memb_bit ht hu]
        simp [hut]
    · have hw2 : (s.tasks t).wakeup_time = OS_NOSLEEP := by
        by_contra hc
        exact hw hc
      have hred : reclaimSchedule s =
          { s with ready := s.ready ||| s.ejected, ejected := 0 } := by
        unfold reclaimSchedule
        rw [if_pos hne]
        simp only [hclz]
        rw [if_neg hw]
      rw [hred]
      refine ⟨rfl, rfl, rfl, rfl, rfl, fun hc => absurd hw2 hc, ?_⟩
      intro _
      refine ⟨?_, rfl, ?_⟩
      · rw [hej, memb_or, memb_bit ht ht]
        simp
      · intro u hu hut
        rw [hej, memb_or, memb_bit ht hu]
        simp [hut]


/-- Witness for C8: on `sReclaim` the reclaim phase moves the sleeping
task 1 to PENDING and clears EJECTED, and agrees with yield's copy. -/
theorem reclaim_phases_equal_witness :
    memb (reclaimSchedule sReclaim).pending 1 = true ∧
    (reclaimSchedule sReclaim).ejected = 0 ∧
    reclaimSchedule sReclaim = reclaimYield sReclaim := by
  have h := reclaim_phases_equal.2 sReclaim 1 (by decide) rfl
  exact ⟨(h.2.2.2.2.2.1 (by decide)).1, h.1, reclaim_phases_equal.1 sReclaim⟩

end Kantos
